import Mathlib

/-!
# Verification of the cppkafka `Consumer` (consumer-group client)

A shallow embedding of the `cppkafka::Consumer` class declared in
`include/cppkafka/consumer.h`.  The repository snapshot contains only the
header (declarations and documentation); the method bodies live in a
`consumer.cpp` translation unit that is not part of the snapshot.  Every
behavioural definition below is therefore modelled from the specification
of the consumer-group client, faithful to its words, and marked as such in
its doc comment.

The model is purely functional: the mutable `Consumer` object becomes a
state record, each method becomes a state transformer, and the side
effects on the broker client and the user callbacks are made observable as
explicit call logs returned next to the new state.
-/

namespace Cppkafka

/-- A topic/partition as in `topic_partition.h`: identity is the
(topic, partition) pair, the offset is mutable metadata. -/
structure TopicPartition where
  topic : String
  partition : Int
  offset : Int
deriving Repr, DecidableEq

/-- Ordered sequence of topic/partitions (`std::vector<TopicPartition>`). -/
abbrev TopicPartitionList := List TopicPartition

/-- A polled message: payload and key bytes, the topic/partition/offset
triple, an optional timestamp, an optional error code and the EOF flag. -/
structure Message where
  payload : List Nat
  key : List Nat
  topic : String
  partition : Int
  offset : Int
  timestamp : Option Int
  errCode : Option Int
  eof : Bool
deriving Repr, DecidableEq

/-- An error value as wrapped by `cppkafka::Error`: an rdkafka error code. -/
structure Error where
  code : Int
deriving Repr, DecidableEq

/-- Errors surfaced to the caller by consumer operations.  The spec
taxonomy: `ConfigurationError` (missing group identity at construction)
and `BrokerError` (a failed broker-client call). -/
inductive KafkaError where
  | configurationError
  | brokerError (code : Int)
deriving Repr, DecidableEq

/-- The discriminator the broker client passes to the rebalance dispatch,
modelling `rd_kafka_resp_err_t` restricted to the three cases the handler
distinguishes: partitions assigned, partitions revoked, or a
non-recoverable error code. -/
inductive RespErr where
  | assignPartitions
  | revokePartitions
  | nonRecoverable (e : Error)

/-- The rebalance handler's state machine states (spec section 4.2). -/
inductive RebalanceState where
  | unassigned
  | assigned
deriving Repr, DecidableEq

/-- Assignment callback (`std::function<void(TopicPartitionList&)>`): the
callback receives a mutable reference, so it is modelled as a function
from the list to the mutated list. -/
abbrev AssignmentCallback := TopicPartitionList → TopicPartitionList

/-- Revocation callback (`std::function<void(const TopicPartitionList&)>`):
receives an immutable view, so its only observable effect here is that it
is invoked with its argument. -/
abbrev RevocationCallback := TopicPartitionList → Unit

/-- Rebalance error callback (`std::function<void(Error)>`). -/
abbrev RebalanceErrorCallback := Error → Unit

/-- Committed-offset store of the broker: an association list from
(topic, partition) identity to the last committed offset. -/
abbrev CommittedStore := List ((String × Int) × Int)

/-- Looks up the last committed offset for a (topic, partition). -/
def lookupCommitted : CommittedStore → String → Int → Option Int
  | [], _, _ => none
  | (k, v) :: rest, t, p => if k = (t, p) then some v else lookupCommitted rest t p

/-- Stores a committed offset for a (topic, partition), replacing any
previous entry for the same identity. -/
def upsertCommitted : CommittedStore → String → Int → Int → CommittedStore
  | [], t, p, o => [((t, p), o)]
  | (k, v) :: rest, t, p, o =>
      if k = (t, p) then (k, o) :: rest else (k, v) :: upsertCommitted rest t p o

/-- Sentinel "no offset" value returned for a partition with no prior
commit, modelling rdkafka's `RD_KAFKA_OFFSET_INVALID`. -/
def noOffsetSentinel : Int := -1001

/-- Configuration: an association list of attribute/value pairs, as built
from `{ { "group.id", "foo" }, ... }`. -/
abbrev Configuration := List (String × String)

/-- The consumer state: the subscription manager's desired subscription
and assignment mirror, the rebalance handler's state, the broker-side
committed-offset store, the queue of poll deliverables, and the three
callback registration slots (empty `std::function` modelled as `none`). -/
structure Consumer where
  hasGroupId : Bool
  subscription : List String
  assignment : TopicPartitionList
  rebalanceState : RebalanceState
  committed : CommittedStore
  pending : List Message
  assignment_callback_ : Option AssignmentCallback
  revocation_callback_ : Option RevocationCallback
  rebalance_error_callback_ : Option RebalanceErrorCallback

namespace Consumer

/-- Modelled from the spec: `Consumer(Configuration config)` (body not in
the snapshot).  The configuration must contain the `group.id` attribute
or construction fails with `ConfigurationError`. -/
def create (config : Configuration) : Except KafkaError Consumer :=
  if (config.lookup "group.id").isSome then
    .ok { hasGroupId := true
          subscription := []
          assignment := []
          rebalanceState := .unassigned
          committed := []
          pending := []
          assignment_callback_ := none
          revocation_callback_ := none
          rebalance_error_callback_ := none }
  else
    .error .configurationError

/-- Setter for the assignment callback slot. -/
def set_assignment_callback (s : Consumer) (cb : Option AssignmentCallback) : Consumer :=
  { s with assignment_callback_ := cb }

/-- Setter for the revocation callback slot. -/
def set_revocation_callback (s : Consumer) (cb : Option RevocationCallback) : Consumer :=
  { s with revocation_callback_ := cb }

/-- Setter for the rebalance error callback slot. -/
def set_rebalance_error_callback (s : Consumer) (cb : Option RebalanceErrorCallback) : Consumer :=
  { s with rebalance_error_callback_ := cb }

/-- Getter for the assignment callback slot. -/
def get_assignment_callback (s : Consumer) : Option AssignmentCallback :=
  s.assignment_callback_

/-- Getter for the revocation callback slot. -/
def get_revocation_callback (s : Consumer) : Option RevocationCallback :=
  s.revocation_callback_

/-- Getter for the rebalance error callback slot. -/
def get_rebalance_error_callback (s : Consumer) : Option RebalanceErrorCallback :=
  s.rebalance_error_callback_

/-- Modelled from the spec: `subscribe` (body not in the snapshot)
replaces the desired subscription; it fails with `ConfigurationError`
when the instance was not configured with a group identity. -/
def subscribe (s : Consumer) (topics : List String) : Except KafkaError Consumer :=
  if s.hasGroupId then .ok { s with subscription := topics }
  else .error .configurationError

/-- Modelled from the spec: `unsubscribe` (body not in the snapshot)
clears the desired subscription. -/
def unsubscribe (s : Consumer) : Consumer :=
  { s with subscription := [] }

/-- Modelled from the spec: `assign` (body not in the snapshot) sets the
explicit partition ownership; the mirror is updated to the applied list. -/
def assign (s : Consumer) (topic_partitions : TopicPartitionList) : Consumer :=
  { s with assignment := topic_partitions }

/-- Modelled from the spec: `unassign` (body not in the snapshot) clears
the ownership, equivalently to `assign` with an empty list. -/
def unassign (s : Consumer) : Consumer :=
  { s with assignment := [] }

/-- Pure read of the current assignment mirror (`get_assignment`). -/
def get_assignment (s : Consumer) : TopicPartitionList :=
  s.assignment

/-- Pure read of the current subscription (`get_subscription`). -/
def get_subscription (s : Consumer) : List String :=
  s.subscription

/-- Modelled from the spec: `commit(const Message&, bool async)` (body not
in the snapshot) commits the offset immediately following the message's
offset, for that message's topic/partition only. -/
def commit_message (s : Consumer) (msg : Message) (_async : Bool) : Consumer :=
  { s with committed := upsertCommitted s.committed msg.topic msg.partition (msg.offset + 1) }

/-- Modelled from the spec: `commit(const TopicPartitionList&, bool async)`
(body not in the snapshot) commits each listed topic/partition at its
carried offset. -/
def commit_list (s : Consumer) (topic_partitions : TopicPartitionList) (_async : Bool) : Consumer :=
  { s with committed :=
      (topic_partitions.foldl (fun acc tp => upsertCommitted acc tp.topic tp.partition tp.offset)
        s.committed) }

/-- Modelled from the spec: `get_offsets_committed` (body not in the
snapshot) returns the list with each offset replaced by the
last-committed value for its partition; a partition with no prior commit
receives the "no offset" sentinel. -/
def get_offsets_committed (s : Consumer) (topic_partitions : TopicPartitionList) :
    TopicPartitionList :=
  topic_partitions.map fun tp =>
    { tp with offset := (lookupCommitted s.committed tp.topic tp.partition).getD noOffsetSentinel }

/-- Modelled from the spec: `poll(timeout)` (body not in the snapshot)
returns the next available deliverable, or an empty (absent) message if
none becomes available before the timeout; the returned number is the
time spent blocked waiting, bounded by the timeout. -/
def poll (s : Consumer) (timeout : Nat) : Consumer × Option Message × Nat :=
  match s.pending with
  | [] => (s, none, timeout)
  | msg :: rest => ({ s with pending := rest }, some msg, 0)

/-- Whether a poll result is an error notification: an empty result is
not an error, and an EOF notification is explicitly not a failure. -/
def is_error_result : Option Message → Bool
  | none => false
  | some msg => msg.errCode.isSome && !msg.eof

/-- A broker-client primitive invocation observable at the boundary. -/
inductive BrokerCall where
  | assignCall (l : TopicPartitionList)
  | unassignCall
deriving Repr, DecidableEq

/-- A user-callback invocation, recording the argument it was given. -/
inductive CallbackCall where
  | assignedCall (l : TopicPartitionList)
  | revokedCall (l : TopicPartitionList)
  | rebalanceErrorCall (e : Error)
deriving Repr, DecidableEq

/-- Modelled from the spec: `handle_rebalance` (body not in the snapshot).
On a partitions-assigned event it invokes the assignment callback (if
registered) on the constructed list, applies the possibly mutated list
via the broker client's assign primitive, and updates the mirror; on a
partitions-revoked event it invokes the revocation callback (if
registered) on the current assignment, unassigns via the broker client,
and clears the mirror; on a non-recoverable error it only invokes the
rebalance-error callback (if registered) with the error value.  The
broker-client calls and callback invocations are returned as logs. -/
def handle_rebalance (s : Consumer) (err : RespErr)
    (topic_partitions : TopicPartitionList) :
    Consumer × List BrokerCall × List CallbackCall :=
  match err with
  | .assignPartitions =>
      match s.assignment_callback_ with
      | some cb =>
          let mutated := cb topic_partitions
          ({ assign s mutated with rebalanceState := .assigned },
           [.assignCall mutated],
           [.assignedCall topic_partitions])
      | none =>
          ({ assign s topic_partitions with rebalanceState := .assigned },
           [.assignCall topic_partitions],
           [])
  | .revokePartitions =>
      let current := s.assignment
      ({ unassign s with rebalanceState := .unassigned },
       [.unassignCall],
       match s.revocation_callback_ with
       | some _ => [.revokedCall current]
       | none => [])
  | .nonRecoverable e =>
      (s, [],
       match s.rebalance_error_callback_ with
       | some _ => [.rebalanceErrorCall e]
       | none => [])

end Consumer

/-- A user-initiated operation on the consumer, for reasoning about
sequences of calls between rebalance events. -/
inductive UserOp where
  | subscribeOp (topics : List String)
  | unsubscribeOp
  | assignOp (l : TopicPartitionList)
  | unassignOp
  | commitMessageOp (msg : Message) (async : Bool)
  | commitListOp (l : TopicPartitionList) (async : Bool)
  | pollOp (timeout : Nat)
  | setAssignmentCallbackOp (cb : Option AssignmentCallback)
  | setRevocationCallbackOp (cb : Option RevocationCallback)
  | setRebalanceErrorCallbackOp (cb : Option RebalanceErrorCallback)

/-- State effect of one user operation (a failing `subscribe` raises and
leaves the state unchanged). -/
def stepUser (s : Consumer) : UserOp → Consumer
  | .subscribeOp ts =>
      match s.subscribe ts with
      | .ok s' => s'
      | .error _ => s
  | .unsubscribeOp => s.unsubscribe
  | .assignOp l => s.assign l
  | .unassignOp => s.unassign
  | .commitMessageOp msg a => s.commit_message msg a
  | .commitListOp l a => s.commit_list l a
  | .pollOp t => (s.poll t).1
  | .setAssignmentCallbackOp cb => s.set_assignment_callback cb
  | .setRevocationCallbackOp cb => s.set_revocation_callback cb
  | .setRebalanceErrorCallbackOp cb => s.set_rebalance_error_callback cb

/-- An event in a consumer run: either a user operation or a
coordinator-issued rebalance event delivered during a poll. -/
inductive ConsumerEvent where
  | user (op : UserOp)
  | rebalance (err : RespErr) (l : TopicPartitionList)

/-- State effect of one event. -/
def stepEvent (s : Consumer) : ConsumerEvent → Consumer
  | .user op => stepUser s op
  | .rebalance err l => (s.handle_rebalance err l).1

/-- Runs a sequence of events from a state. -/
def runEvents (s : Consumer) (evs : List ConsumerEvent) : Consumer :=
  evs.foldl stepEvent s

/-- Whether a user operation is an explicit `assign`/`unassign` call. -/
def UserOp.isAssignLike : UserOp → Bool
  | .assignOp _ => true
  | .unassignOp => true
  | _ => false

/-- Whether an event commits an offset for the given (topic, partition). -/
def eventCommits (t : String) (p : Int) : ConsumerEvent → Bool
  | .user (.commitMessageOp msg _) => msg.topic = t && msg.partition = p
  | .user (.commitListOp l _) => l.any fun tp => tp.topic = t && tp.partition = p
  | _ => false

/-! ## Helper lemmas on the committed-offset store -/

lemma lookup_upsert_same (c : CommittedStore) (t : String) (p : Int) (o : Int) :
    lookupCommitted (upsertCommitted c t p o) t p = some o := by
  induction c with
  | nil => simp [upsertCommitted, lookupCommitted]
  | cons kv rest ih =>
      obtain ⟨k, v⟩ := kv
      by_cases hk : k = (t, p)
      · simp [upsertCommitted, lookupCommitted, hk]
      · simp [upsertCommitted, lookupCommitted, hk, ih]

lemma lookup_upsert_other (c : CommittedStore) (t : String) (p : Int) (o : Int)
    (t' : String) (p' : Int) (h : ¬(t' = t ∧ p' = p)) :
    lookupCommitted (upsertCommitted c t p o) t' p' = lookupCommitted c t' p' := by
  have hne : (t', p') ≠ (t, p) := by
    intro hc
    exact h ⟨congrArg Prod.fst hc, congrArg Prod.snd hc⟩
  induction c with
  | nil =>
      simp only [upsertCommitted, lookupCommitted]
      rw [if_neg (fun hk : (t, p) = (t', p') => hne hk.symm)]
  | cons kv rest ih =>
      obtain ⟨k, v⟩ := kv
      by_cases hk : k = (t, p)
      · subst hk
        simp only [upsertCommitted, lookupCommitted, if_pos rfl]
        rw [if_neg (fun hk2 : (t, p) = (t', p') => hne hk2.symm),
            if_neg (fun hk2 : (t, p) = (t', p') => hne hk2.symm)]
      · simp only [upsertCommitted, lookupCommitted, if_neg hk]
        by_cases hk2 : k = (t', p')
        · rw [if_pos hk2, if_pos hk2]
        · rw [if_neg hk2, if_neg hk2, ih]

lemma lookup_foldl_upsert (l : TopicPartitionList) (c : CommittedStore)
    (t : String) (p : Int)
    (h : ∀ tp ∈ l, ¬(tp.topic = t ∧ tp.partition = p)) :
    lookupCommitted
      (l.foldl (fun acc tp => upsertCommitted acc tp.topic tp.partition tp.offset) c) t p
      = lookupCommitted c t p := by
  induction l generalizing c with
  | nil => rfl
  | cons tp rest ih =>
      have htp := h tp (List.mem_cons_self tp rest)
      have hrest : ∀ tp' ∈ rest, ¬(tp'.topic = t ∧ tp'.partition = p) :=
        fun tp' htp' => h tp' (List.mem_cons_of_mem tp htp')
      simp only [List.foldl_cons]
      rw [ih _ hrest, lookup_upsert_other _ _ _ _ _ _ (fun hc => htp ⟨hc.1.symm, hc.2.symm⟩)]

/-! ## Helper lemmas on preservation across operations -/

lemma stepUser_assignment (s : Consumer) (op : UserOp)
    (h : op.isAssignLike = false) :
    (stepUser s op).assignment = s.assignment := by
  cases op with
  | subscribeOp ts =>
      by_cases hg : s.hasGroupId
      · simp [stepUser, Consumer.subscribe, hg]
      · simp [stepUser, Consumer.subscribe, hg]
  | unsubscribeOp => rfl
  | assignOp l => simp [UserOp.isAssignLike] at h
  | unassignOp => simp [UserOp.isAssignLike] at h
  | commitMessageOp msg a => rfl
  | commitListOp l a => rfl
  | pollOp t =>
      cases hp : s.pending with
      | nil => simp [stepUser, Consumer.poll, hp]
      | cons m rest => simp [stepUser, Consumer.poll, hp]
  | setAssignmentCallbackOp cb => rfl
  | setRevocationCallbackOp cb => rfl
  | setRebalanceErrorCallbackOp cb => rfl

lemma foldl_stepUser_assignment (ops : List UserOp) (s : Consumer)
    (h : ∀ op ∈ ops, op.isAssignLike = false) :
    (ops.foldl stepUser s).assignment = s.assignment := by
  induction ops generalizing s with
  | nil => rfl
  | cons op rest ih =>
      have hop := h op (List.mem_cons_self op rest)
      have hrest : ∀ op' ∈ rest, op'.isAssignLike = false :=
        fun op' h' => h op' (List.mem_cons_of_mem op h')
      simp only [List.foldl_cons]
      rw [ih _ hrest, stepUser_assignment s op hop]

lemma stepUser_committed_lookup (s : Consumer) (op : UserOp) (t : String) (p : Int)
    (h : eventCommits t p (ConsumerEvent.user op) = false) :
    lookupCommitted (stepUser s op).committed t p = lookupCommitted s.committed t p := by
  cases op with
  | subscribeOp ts =>
      by_cases hg : s.hasGroupId
      · simp [stepUser, Consumer.subscribe, hg]
      · simp [stepUser, Consumer.subscribe, hg]
  | unsubscribeOp => rfl
  | assignOp l => rfl
  | unassignOp => rfl
  | commitMessageOp msg a =>
      simp only [eventCommits, Bool.and_eq_false_iff, decide_eq_false_iff_not] at h
      refine lookup_upsert_other _ _ _ _ _ _ (fun hc => ?_)
      rcases h with h | h
      · exact h hc.1.symm
      · exact h hc.2.symm
  | commitListOp l a =>
      simp only [eventCommits, List.any_eq_false] at h
      refine lookup_foldl_upsert _ _ _ _ (fun tp htp hc => ?_)
      have htp' := h tp htp
      simp [hc.1, hc.2] at htp'
  | pollOp tm =>
      cases hp : s.pending with
      | nil => simp [stepUser, Consumer.poll, hp]
      | cons m rest => simp [stepUser, Consumer.poll, hp]
  | setAssignmentCallbackOp cb => rfl
  | setRevocationCallbackOp cb => rfl
  | setRebalanceErrorCallbackOp cb => rfl

lemma handle_rebalance_committed (s : Consumer) (err : RespErr)
    (l : TopicPartitionList) :
    (s.handle_rebalance err l).1.committed = s.committed := by
  cases err with
  | assignPartitions =>
      cases hcb : s.assignment_callback_ with
      | none => simp [Consumer.handle_rebalance, hcb, Consumer.assign]
      | some cb => simp [Consumer.handle_rebalance, hcb, Consumer.assign]
  | revokePartitions => rfl
  | nonRecoverable e => rfl

lemma stepEvent_committed_lookup (s : Consumer) (ev : ConsumerEvent)
    (t : String) (p : Int) (h : eventCommits t p ev = false) :
    lookupCommitted (stepEvent s ev).committed t p = lookupCommitted s.committed t p := by
  cases ev with
  | user op => exact stepUser_committed_lookup s op t p h
  | rebalance err l => rw [stepEvent, handle_rebalance_committed]

lemma runEvents_committed_lookup (evs : List ConsumerEvent) (s : Consumer)
    (t : String) (p : Int) (h : ∀ ev ∈ evs, eventCommits t p ev = false) :
    lookupCommitted (runEvents s evs).committed t p = lookupCommitted s.committed t p := by
  induction evs generalizing s with
  | nil => rfl
  | cons ev rest ih =>
      have hev := h ev (List.mem_cons_self ev rest)
      have hrest : ∀ ev' ∈ rest, eventCommits t p ev' = false :=
        fun ev' h' => h ev' (List.mem_cons_of_mem ev h')
      simp only [runEvents, List.foldl_cons]
      rw [show (List.foldl stepEvent (stepEvent s ev) rest) = runEvents (stepEvent s ev) rest
            from rfl,
          ih _ hrest, stepEvent_committed_lookup s ev t p hev]

lemma create_ok_shape (config : Configuration) (s : Consumer)
    (h : Consumer.create config = .ok s) :
    s.hasGroupId = true ∧ s.committed = [] ∧ s.assignment = [] := by
  unfold Consumer.create at h
  by_cases hg : (config.lookup "group.id").isSome
  · rw [if_pos hg] at h
    cases h
    exact ⟨rfl, rfl, rfl⟩
  · rw [if_neg hg] at h
    cases h

/-! ## Claim theorems -/

/-- C1: after a processed partitions-assigned rebalance event with no
error, `get_assignment()` returns exactly the list that was applied via
the broker client's assign primitive (including callback mutations), and
this persists across any user operations that are not `assign`/`unassign`
until the next rebalance. -/
theorem consumer_assignment_stable_after_rebalance
    (s : Consumer) (l applied : TopicPartitionList) (ops : List UserOp)
    (hcall : (s.handle_rebalance .assignPartitions l).2.1
      = [Consumer.BrokerCall.assignCall applied])
    (hops : ∀ op ∈ ops, op.isAssignLike = false) :
    Consumer.get_assignment (ops.foldl stepUser (s.handle_rebalance .assignPartitions l).1)
      = applied := by
  rw [Consumer.get_assignment, foldl_stepUser_assignment ops _ hops]
  cases hcb : s.assignment_callback_ with
  | none =>
      simp only [Consumer.handle_rebalance, hcb, List.cons.injEq, and_true,
        Consumer.BrokerCall.assignCall.injEq] at hcall
      simp [Consumer.handle_rebalance, hcb, Consumer.assign, hcall]
  | some cb =>
      simp only [Consumer.handle_rebalance, hcb, List.cons.injEq, and_true,
        Consumer.BrokerCall.assignCall.injEq] at hcall
      simp [Consumer.handle_rebalance, hcb, Consumer.assign, hcall]

/-- Witness for C1 at a concrete state, list and operation sequence. -/
theorem consumer_assignment_stable_after_rebalance_witness :
    Consumer.get_assignment
      (([UserOp.unsubscribeOp, UserOp.pollOp 5].foldl stepUser
        (({ hasGroupId := true, subscription := ["t"], assignment := [],
            rebalanceState := .unassigned, committed := [], pending := [],
            assignment_callback_ := none, revocation_callback_ := none,
            rebalance_error_callback_ := none : Consumer}).handle_rebalance
          .assignPartitions [⟨"t", 0, 0⟩, ⟨"t", 1, 0⟩]).1))
      = [⟨"t", 0, 0⟩, ⟨"t", 1, 0⟩] := by
  refine consumer_assignment_stable_after_rebalance _ _ _ _ rfl ?_
  intro op hop
  fin_cases hop <;> rfl

/-- C2: with no callbacks registered, an error-free assigned event still
applies the assignment (so `get_assignment()` returns exactly the event's
partitions) and a revoked event always clears the assignment, whether or
not a revocation callback is registered. -/
theorem rebalance_default_actions
    (s : Consumer) (l : TopicPartitionList) (h : s.assignment_callback_ = none) :
    Consumer.get_assignment (s.handle_rebalance .assignPartitions l).1 = l ∧
    ∀ (s' : Consumer) (l' : TopicPartitionList),
      Consumer.get_assignment (s'.handle_rebalance .revokePartitions l').1 = [] := by
  constructor
  · simp [Consumer.handle_rebalance, h, Consumer.assign, Consumer.get_assignment]
  · intro s' l'
    simp [Consumer.handle_rebalance, Consumer.unassign, Consumer.get_assignment]

/-- Witness for C2: the spec scenario with partitions ("t",0) and ("t",1)
and no callback registered. -/
theorem rebalance_default_actions_witness :
    Consumer.get_assignment
      (({ hasGroupId := true, subscription := ["t"], assignment := [],
          rebalanceState := .unassigned, committed := [], pending := [],
          assignment_callback_ := none, revocation_callback_ := none,
          rebalance_error_callback_ := none : Consumer}).handle_rebalance
        .assignPartitions [⟨"t", 0, 0⟩, ⟨"t", 1, 0⟩]).1
      = [⟨"t", 0, 0⟩, ⟨"t", 1, 0⟩] :=
  (rebalance_default_actions _ [⟨"t", 0, 0⟩, ⟨"t", 1, 0⟩] rfl).1

/-- C3: committing a message at offset `o` commits exactly `o + 1` for the
message's (topic, partition): afterwards `get_offsets_committed` for that
partition returns `o + 1`, and the committed offset of every other
(topic, partition) is unchanged. -/
theorem commit_message_commits_next_offset
    (s : Consumer) (msg : Message) (t : String) (p : Int)
    (h : ¬(t = msg.topic ∧ p = msg.partition)) :
    lookupCommitted (s.commit_message msg false).committed msg.topic msg.partition
      = some (msg.offset + 1) ∧
    (s.commit_message msg false).get_offsets_committed
        [⟨msg.topic, msg.partition, 0⟩]
      = [⟨msg.topic, msg.partition, msg.offset + 1⟩] ∧
    lookupCommitted (s.commit_message msg false).committed t p
      = lookupCommitted s.committed t p := by
  refine ⟨lookup_upsert_same _ _ _ _, ?_, lookup_upsert_other _ _ _ _ _ _ h⟩
  simp [Consumer.get_offsets_committed, Consumer.commit_message, lookup_upsert_same]

/-- Witness for C3: the spec scenario, a message at offset 50 for ("t",0)
committed synchronously; get_offsets_committed returns 51, and ("u",3) is
untouched. -/
theorem commit_message_commits_next_offset_witness :
    (({ hasGroupId := true, subscription := [], assignment := [],
        rebalanceState := .unassigned, committed := [(("u", 3), 7)], pending := [],
        assignment_callback_ := none, revocation_callback_ := none,
        rebalance_error_callback_ := none : Consumer}).commit_message
        ⟨[], [], "t", 0, 50, none, none, false⟩ false).get_offsets_committed
        [⟨"t", 0, 0⟩]
      = [⟨"t", 0, 51⟩] ∧
    lookupCommitted
      (({ hasGroupId := true, subscription := [], assignment := [],
          rebalanceState := .unassigned, committed := [(("u", 3), 7)], pending := [],
          assignment_callback_ := none, revocation_callback_ := none,
          rebalance_error_callback_ := none : Consumer}).commit_message
          ⟨[], [], "t", 0, 50, none, none, false⟩ false).committed "u" 3
      = some 7 := by
  have h := commit_message_commits_next_offset
    { hasGroupId := true, subscription := [], assignment := [],
      rebalanceState := .unassigned, committed := [(("u", 3), 7)], pending := [],
      assignment_callback_ := none, revocation_callback_ := none,
      rebalance_error_callback_ := none }
    ⟨[], [], "t", 0, 50, none, none, false⟩ "u" 3 (by simp)
  exact ⟨h.2.1, by rw [h.2.2]; rfl⟩

/-- C4: during a partitions-assigned event, a registered assignment
callback receives the constructed list, and the broker client's assign
primitive receives the list as mutated by the callback; the mirror is
updated to the same mutated list. -/
theorem assignment_callback_mutation_applied
    (s : Consumer) (cb : AssignmentCallback) (l : TopicPartitionList)
    (h : s.assignment_callback_ = some cb) :
    (s.handle_rebalance .assignPartitions l).2.2
      = [Consumer.CallbackCall.assignedCall l] ∧
    (s.handle_rebalance .assignPartitions l).2.1
      = [Consumer.BrokerCall.assignCall (cb l)] ∧
    Consumer.get_assignment (s.handle_rebalance .assignPartitions l).1 = cb l := by
  simp [Consumer.handle_rebalance, h, Consumer.assign, Consumer.get_assignment]

/-- Witness for C4: the spec scenario, a callback that sets the offset of
("t",0) to 100; the broker assign call receives offset 100. -/
theorem assignment_callback_mutation_applied_witness :
    (({ hasGroupId := true, subscription := ["t"], assignment := [],
        rebalanceState := .unassigned, committed := [], pending := [],
        assignment_callback_ :=
          some (fun tps => tps.map fun tp => { tp with offset := 100 }),
        revocation_callback_ := none,
        rebalance_error_callback_ := none : Consumer}).handle_rebalance
        .assignPartitions [⟨"t", 0, 0⟩]).2.1
      = [Consumer.BrokerCall.assignCall [⟨"t", 0, 100⟩]] := by
  have h := assignment_callback_mutation_applied
    { hasGroupId := true, subscription := ["t"], assignment := [],
      rebalanceState := .unassigned, committed := [], pending := [],
      assignment_callback_ :=
        some (fun tps => tps.map fun tp => { tp with offset := 100 }),
      revocation_callback_ := none, rebalance_error_callback_ := none }
    (fun tps => tps.map fun tp => { tp with offset := 100 }) [⟨"t", 0, 0⟩] rfl
  exact h.2.1

/-- C5: every rebalance event carrying a non-recoverable error leaves the
whole consumer state — in particular the assignment mirror, the value of
`get_assignment` and the rebalance state — unchanged and issues no
broker-client call, whether or not an error callback is registered; when
one is registered it is invoked with exactly the error value, and when
none is registered no callback is invoked. -/
theorem rebalance_error_no_mutation
    (s : Consumer) (e : Error) (l : TopicPartitionList) :
    (s.handle_rebalance (.nonRecoverable e) l).1 = s ∧
    (s.handle_rebalance (.nonRecoverable e) l).2.1 = [] ∧
    Consumer.get_assignment (s.handle_rebalance (.nonRecoverable e) l).1
      = Consumer.get_assignment s ∧
    (s.handle_rebalance (.nonRecoverable e) l).1.rebalanceState = s.rebalanceState ∧
    (∀ cb, s.rebalance_error_callback_ = some cb →
      (s.handle_rebalance (.nonRecoverable e) l).2.2
        = [Consumer.CallbackCall.rebalanceErrorCall e]) ∧
    (s.rebalance_error_callback_ = none →
      (s.handle_rebalance (.nonRecoverable e) l).2.2 = []) := by
  refine ⟨rfl, rfl, rfl, rfl, ?_, ?_⟩
  · intro cb hcb
    simp [Consumer.handle_rebalance, hcb]
  · intro hcb
    simp [Consumer.handle_rebalance, hcb]

/-- Witness for C5 at a concrete state with a registered error callback:
the callback is invoked with the error value and the assignment is
untouched. -/
theorem rebalance_error_no_mutation_witness :
    (({ hasGroupId := true, subscription := ["t"], assignment := [⟨"t", 0, 3⟩],
        rebalanceState := .assigned, committed := [], pending := [],
        assignment_callback_ := none, revocation_callback_ := none,
        rebalance_error_callback_ := some (fun _ => ()) : Consumer}).handle_rebalance
        (.nonRecoverable ⟨-150⟩) [⟨"t", 5, 0⟩]).2.2
      = [Consumer.CallbackCall.rebalanceErrorCall ⟨-150⟩] ∧
    Consumer.get_assignment
      (({ hasGroupId := true, subscription := ["t"], assignment := [⟨"t", 0, 3⟩],
          rebalanceState := .assigned, committed := [], pending := [],
          assignment_callback_ := none, revocation_callback_ := none,
          rebalance_error_callback_ := some (fun _ => ()) : Consumer}).handle_rebalance
          (.nonRecoverable ⟨-150⟩) [⟨"t", 5, 0⟩]).1
      = [⟨"t", 0, 3⟩] := by
  have h := rebalance_error_no_mutation
    { hasGroupId := true, subscription := ["t"], assignment := [⟨"t", 0, 3⟩],
      rebalanceState := .assigned, committed := [], pending := [],
      assignment_callback_ := none, revocation_callback_ := none,
      rebalance_error_callback_ := some (fun _ => ()) }
    ⟨-150⟩ [⟨"t", 5, 0⟩]
  exact ⟨h.2.2.2.2.1 (fun _ => ()) rfl, by rw [h.2.2.1]; rfl⟩

/-- C6: `get_offsets_committed` only reports per-partition last-committed
offsets — every returned entry keeps its (topic, partition) identity from
the input, carries the sentinel exactly when that partition has no
committed offset, and carries the committed offset otherwise; in
particular, starting from a freshly constructed consumer, a partition
never targeted by any commit always reports the sentinel, never a
fabricated offset. -/
theorem get_offsets_committed_no_fabrication
    (config : Configuration) (s₀ : Consumer) (evs : List ConsumerEvent)
    (t : String) (p : Int) (o : Int)
    (hc : Consumer.create config = .ok s₀)
    (h : ∀ ev ∈ evs, eventCommits t p ev = false) :
    (∀ (s : Consumer) (l : TopicPartitionList) (tp' : TopicPartition),
        tp' ∈ s.get_offsets_committed l →
          (∃ tp ∈ l, tp'.topic = tp.topic ∧ tp'.partition = tp.partition) ∧
          (lookupCommitted s.committed tp'.topic tp'.partition = none →
            tp'.offset = noOffsetSentinel) ∧
          ∀ c, lookupCommitted s.committed tp'.topic tp'.partition = some c →
            tp'.offset = c) ∧
    Consumer.get_offsets_committed (runEvents s₀ evs) [⟨t, p, o⟩]
      = [⟨t, p, noOffsetSentinel⟩] := by
  constructor
  · intro s l tp' htp'
    simp only [Consumer.get_offsets_committed, List.mem_map] at htp'
    obtain ⟨tp, htp, heq⟩ := htp'
    subst heq
    refine ⟨⟨tp, htp, rfl, rfl⟩, ?_, ?_⟩
    · intro hnone
      simp only at hnone
      simp [hnone]
    · intro c hsome
      simp only at hsome
      simp [hsome]
  · have hempty : s₀.committed = [] := (create_ok_shape config s₀ hc).2.1
    have hrun : lookupCommitted (runEvents s₀ evs).committed t p = none := by
      rw [runEvents_committed_lookup evs s₀ t p h, hempty]
      rfl
    simp [Consumer.get_offsets_committed, hrun]

/-- Witness for C6: one commit targeting ("u",1) leaves ("t",0) with the
sentinel. -/
theorem get_offsets_committed_no_fabrication_witness :
    Consumer.get_offsets_committed
      (runEvents
        { hasGroupId := true, subscription := [], assignment := [],
          rebalanceState := .unassigned, committed := [], pending := [],
          assignment_callback_ := none, revocation_callback_ := none,
          rebalance_error_callback_ := none }
        [ConsumerEvent.user
          (.commitMessageOp ⟨[], [], "u", 1, 50, none, none, false⟩ false)])
      [⟨"t", 0, 5⟩]
      = [⟨"t", 0, noOffsetSentinel⟩] :=
  (get_offsets_committed_no_fabrication [("group.id", "g")]
    { hasGroupId := true, subscription := [], assignment := [],
      rebalanceState := .unassigned, committed := [], pending := [],
      assignment_callback_ := none, revocation_callback_ := none,
      rebalance_error_callback_ := none }
    [ConsumerEvent.user
      (.commitMessageOp ⟨[], [], "u", 1, 50, none, none, false⟩ false)]
    "t" 0 5 rfl (by decide)).2

/-- C7: `poll` with timeout 0 and no pending deliverable returns the
empty (absent) message with zero blocking time, and the empty result is
not an error. -/
theorem poll_zero_timeout_empty (s : Consumer) (h : s.pending = []) :
    s.poll 0 = (s, none, 0) ∧
    Consumer.is_error_result (s.poll 0).2.1 = false := by
  have hp : s.poll 0 = (s, none, 0) := by
    simp [Consumer.poll, h]
  exact ⟨hp, by rw [hp]; rfl⟩

/-- Witness for C7 at a concrete consumer with an empty queue. -/
theorem poll_zero_timeout_empty_witness :
    ({ hasGroupId := true, subscription := ["t"], assignment := [⟨"t", 0, 3⟩],
       rebalanceState := .assigned, committed := [], pending := [],
       assignment_callback_ := none, revocation_callback_ := none,
       rebalance_error_callback_ := none : Consumer}).poll 0
      = ({ hasGroupId := true, subscription := ["t"], assignment := [⟨"t", 0, 3⟩],
           rebalanceState := .assigned, committed := [], pending := [],
           assignment_callback_ := none, revocation_callback_ := none,
           rebalance_error_callback_ := none : Consumer}, none, 0) :=
  (poll_zero_timeout_empty _ rfl).1

/-- C8: on a successfully constructed consumer, `subscribe` replaces the
desired subscription and never raises `ConfigurationError`; on an
instance without a group identity, `subscribe` fails with
`ConfigurationError`. -/
theorem subscribe_requires_group_id
    (config : Configuration) (s : Consumer) (topics : List String)
    (hc : Consumer.create config = .ok s) :
    (∃ s', s.subscribe topics = .ok s' ∧ Consumer.get_subscription s' = topics) ∧
    ∀ s₀ : Consumer, s₀.hasGroupId = false →
      s₀.subscribe topics = .error KafkaError.configurationError := by
  have hg := (create_ok_shape config s hc).1
  refine ⟨⟨{ s with subscription := topics }, ?_, rfl⟩, ?_⟩
  · simp [Consumer.subscribe, hg]
  · intro s₀ h₀
    simp [Consumer.subscribe, h₀]

/-- Witness for C8 at a configuration carrying a group.id. -/
theorem subscribe_requires_group_id_witness :
    (∃ s', Consumer.subscribe
        { hasGroupId := true, subscription := [], assignment := [],
          rebalanceState := .unassigned, committed := [], pending := [],
          assignment_callback_ := none, revocation_callback_ := none,
          rebalance_error_callback_ := none } ["t"]
        = .ok s' ∧ Consumer.get_subscription s' = ["t"]) ∧
    ∀ s₀ : Consumer, s₀.hasGroupId = false →
      s₀.subscribe ["t"] = .error KafkaError.configurationError :=
  subscribe_requires_group_id [("group.id", "g")]
    { hasGroupId := true, subscription := [], assignment := [],
      rebalanceState := .unassigned, committed := [], pending := [],
      assignment_callback_ := none, revocation_callback_ := none,
      rebalance_error_callback_ := none }
    ["t"] rfl

/-- C9: `unassign` is the same state transformer as `assign` with the
empty list, and after either the assignment read back is empty. -/
theorem unassign_eq_assign_empty (s : Consumer) :
    s.unassign = s.assign [] ∧
    Consumer.get_assignment s.unassign = [] ∧
    Consumer.get_assignment (s.assign []) = [] :=
  ⟨rfl, rfl, rfl⟩

/-- C10: each callback slot is a setter/getter round trip, and setting
one slot leaves the other two unchanged. -/
theorem callback_slots_independent (s : Consumer)
    (f : Option AssignmentCallback) (g : Option RevocationCallback)
    (k : Option RebalanceErrorCallback) :
    (Consumer.get_assignment_callback (s.set_assignment_callback f) = f ∧
     Consumer.get_revocation_callback (s.set_assignment_callback f)
       = Consumer.get_revocation_callback s ∧
     Consumer.get_rebalance_error_callback (s.set_assignment_callback f)
       = Consumer.get_rebalance_error_callback s) ∧
    (Consumer.get_revocation_callback (s.set_revocation_callback g) = g ∧
     Consumer.get_assignment_callback (s.set_revocation_callback g)
       = Consumer.get_assignment_callback s ∧
     Consumer.get_rebalance_error_callback (s.set_revocation_callback g)
       = Consumer.get_rebalance_error_callback s) ∧
    (Consumer.get_rebalance_error_callback (s.set_rebalance_error_callback k) = k ∧
     Consumer.get_assignment_callback (s.set_rebalance_error_callback k)
       = Consumer.get_assignment_callback s ∧
     Consumer.get_revocation_callback (s.set_rebalance_error_callback k)
       = Consumer.get_revocation_callback s) :=
  ⟨⟨rfl, rfl, rfl⟩, ⟨rfl, rfl, rfl⟩, ⟨rfl, rfl, rfl⟩⟩

end Cppkafka
